import Mathlib

/-
Verification of behavioral claims about the achgateway upload agents,
ODFI ingestion pipeline and email notifier, over a shallow embedding of
the Go sources in Lean 4.
-/

/-! String containment, mirroring the Go calls to strings.Contains. -/

/-- leadMatch pat s is true when pat occurs at the very front of s. -/
def leadMatch : List Char → List Char → Bool
  | [], _ => true
  | _ :: _, [] => false
  | p :: ps, c :: cs => (p == c) && leadMatch ps cs

/-- subMatch pat s is true when pat occurs contiguously anywhere in s. -/
def subMatch (pat : List Char) : List Char → Bool
  | [] => leadMatch pat []
  | c :: cs => leadMatch pat (c :: cs) || subMatch pat cs

/-- strContains s pat embeds the Go expression strings.Contains(s, pat). -/
def strContains (s pat : String) : Bool :=
  subMatch pat.data s.data

/-!
Content hashing.  The Go code hashes serialized record content with SHA-1
and renders a 40 character lowercase hex digest.  We model the digest as a
deterministic 160-bit fold of the serialized bytes; the only properties the
claims rely on are determinism (a pure function of the bytes) and that the
rendered digest is a non-empty hex string of fixed width 40.
-/

/-- hexDigit n is the lowercase hexadecimal digit for n < 16. -/
def hexDigit (n : Nat) : Char :=
  if n < 10 then Char.ofNat (48 + n) else Char.ofNat (87 + (n - 10))

/-- digest160 folds the serialized bytes into a 160-bit accumulator. -/
def digest160 (bs : List Nat) : Nat :=
  bs.foldl (fun a b => (a * 16777619 + b + 1) % 2 ^ 160) 2166136261

/-- contentHash renders the 160-bit digest of the serialized bytes as a
fixed-width 40 character hex string, most significant digit first. -/
def contentHash (bs : List Nat) : String :=
  String.mk ((List.range 40).map (fun i => hexDigit (digest160 bs / 16 ^ (39 - i) % 16)))

/-!
ODFI ingestion model (internal/incoming/odfi).

The processor source file is not part of the provided sources; only its
test, processor_test.go, is.  The definitions below are therefore modelled
from the spec (sections 4.4 and 4.5) and pinned where the test speaks:
TestProcessor_populateHashes requires that after populateHashes runs on a
file whose top-level header failed validation, the first batch still has an
empty ID while its entries carry non-empty hashes; TestProcessor requires
processDir to succeed on a directory holding the zero-batch unparsable
invalid.ach and that very file to reach the processors identified by the
sha1 of its raw bytes, while processFile must fail on the HMBRAD
real-world file, whose parse error is a mandatory-field error on a file
header that is present - so the hard-failure gate is the class of the
parse error, not the batch count.
-/

/-- EntryDetail is one entry of a batch of a parsed payment file; serial is
the serialized content the hasher consumes, ID the content identity. -/
structure EntryDetail where
  serial : List Nat
  ID : String
deriving DecidableEq

/-- Batch is one batch of a parsed payment file; batchID models the Go
value Batches[i].ID(). -/
structure Batch where
  batchID : String
  entries : List EntryDetail
deriving DecidableEq

/-- ACHFile is the parsed payment file hierarchy File, Batches, Entries. -/
structure ACHFile where
  ID : String
  Batches : List Batch
deriving DecidableEq

/-- Modelled from the spec: populateHashes (processor.go is not under src).
Per spec section 4.4 it writes content-derived identities onto the parsed
in-memory structure, per entry, as a pure function of serialized content.
TestProcessor_populateHashes pins the granularity: entry IDs become
non-empty hashes while a batch ID is left as produced by the parser (the
test requires the empty string there). -/
def populateHashes (f : ACHFile) : ACHFile :=
  { f with
    Batches := f.Batches.map (fun b =>
      { b with entries := b.entries.map (fun e =>
          { e with ID := contentHash e.serial }) }) }

/-- ParseErr classifies the error the external parser reports: the
missing-file-header class (ach.ErrFileHeader, raised when the bytes hold no
valid top-level file header, which also covers bytes that are not the
payment format at all) versus any other parse error, such as a
mandatory-field error on a file header that is present. -/
inductive ParseErr
  | fileHeaderMissing (msg : String)
  | other (msg : String)
deriving DecidableEq

/-- ParseResult is the outcome of the external parser boundary of spec
section 6: an error may coexist with partial structure (batches). -/
structure ParseResult where
  err : Option ParseErr
  Batches : List Batch
deriving DecidableEq

/-- isHardErr tests whether a parser outcome is of the class processFile
surfaces as a hard failure: any error other than missing-file-header. -/
def isHardErr : Option ParseErr → Bool
  | some (ParseErr.other _) => true
  | some (ParseErr.fileHeaderMissing _) => false
  | none => false

/-- Modelled from the spec: processFile (processor.go is not under src).
Spec section 4.5 with the behavior pinned by TestProcessor: a parse error
of the missing-file-header class is tolerated whatever the batch count -
the file is identified by the content hash of its raw bytes, entry hashes
are populated, and it is handed onward (the test requires the zero-batch
invalid.ach to be handled, with ID the sha1 of its raw bytes, and
processDir to report no error); any other parse error is a hard per-file
failure surfaced to the caller (the test requires the HMBRAD real-world
file to fail from processFile with a mandatory-field FileHeader error). -/
def processFile (bs : List Nat) (pr : ParseResult) : Except String ACHFile :=
  match pr.err with
  | some (ParseErr.other e) =>
    Except.error ("problem parsing: " ++ e)
  | some (ParseErr.fileHeaderMissing _) =>
    Except.ok (populateHashes { ID := contentHash bs, Batches := pr.Batches })
  | none =>
    Except.ok (populateHashes { ID := contentHash bs, Batches := pr.Batches })

/-- Modelled from the spec: processDir (processor.go is not under src).
Per spec section 4.5 a failure in one file must not abort the directory
scan: errors are aggregated while sibling files are still handed to the
processors.  The result is the aggregated error list alongside the files
handed to the processor chain, in directory order. -/
def processDir (files : List (List Nat × ParseResult)) : List String × List ACHFile :=
  files.foldl
    (fun acc p =>
      match processFile p.1 p.2 with
      | Except.error e => (acc.1 ++ [e], acc.2)
      | Except.ok f => (acc.1, acc.2 ++ [f]))
    ([], [])

/-!
Upload agent model (internal/upload/sftp.go, which is part of the provided
sources).  A remote directory is a list of entries in ReadDir order; each
entry records whether it is a subdirectory, its bytes, and the error the
transport reports for the io.Copy of that entry, if any (none for a clean
read).  The transport primitives thread an explicit connection state, which
for reads is the directory listing itself: SFTP open, stat and read do not
mutate the remote directory, while remove does.
-/

/-- RemoteEntry is one entry of a remote directory listing. -/
structure RemoteEntry where
  name : String
  isDir : Bool
  contents : List Nat
  copyErr : Option String
deriving DecidableEq

/-- File embeds the upload.File record: a filename plus fully downloaded
contents (the Go code copies each remote file into memory before return). -/
structure File where
  Filename : String
  Contents : List Nat
deriving DecidableEq

/-- connOpenStat embeds conn.Open followed by fd.Stat on one entry,
returning whether the entry is a directory; it does not mutate the
remote listing. -/
def connOpenStat (c : List RemoteEntry) (e : RemoteEntry) : Bool × List RemoteEntry :=
  (e.isDir, c)

/-- connCopy embeds io.Copy of an open remote file into a local buffer:
either the full contents, or the error the transport reports; it does not
mutate the remote listing. -/
def connCopy (c : List RemoteEntry) (e : RemoteEntry) :
    Except String (List Nat) × List RemoteEntry :=
  (match e.copyErr with
   | some err => Except.error err
   | none => Except.ok e.contents, c)

/-- connStat embeds conn.Stat on a path against a flat remote listing; a
missing path is the os.IsNotExist outcome, reported as none. -/
def connStat (c : List RemoteEntry) (path : String) :
    Option RemoteEntry × List RemoteEntry :=
  (c.find? (fun e => e.name == path), c)

/-- connRemove embeds conn.Remove of a path from a flat remote listing. -/
def connRemove (c : List RemoteEntry) (path : String) : List RemoteEntry :=
  c.filter (fun e => !(e.name == path))

/-- readFilesLoop embeds the body of SFTPTransferAgent.readFiles: walk the
ReadDir listing, open and stat each entry, skip subdirectories, copy each
regular file fully into memory, and append it to the accumulator.  When
io.Copy reports an error the loop closes the handle and returns an error;
the source distinguishes errors containing the pkg/sftp internal
inconsistency text only by the wording of the returned message (the word
on), still returning an error in both branches.  Byte counts of the Go
messages are elided. -/
def readFilesLoop (c : List RemoteEntry) :
    List RemoteEntry → List File → Except String (List File) × List RemoteEntry
  | [], acc => (Except.ok acc, c)
  | e :: rest, acc =>
    let s1 := connOpenStat c e
    if s1.1 then
      readFilesLoop s1.2 rest acc
    else
      let s2 := connCopy s1.2 e
      match s2.1 with
      | Except.error err =>
        if strContains err ("internal inconsistency") = false then
          (Except.error ("sftp: read " ++ e.name ++ ": " ++ err), s2.2)
        else
          (Except.error ("sftp: read on " ++ e.name ++ ": " ++ err), s2.2)
      | Except.ok bs =>
        readFilesLoop s2.2 rest (acc ++ [{ Filename := e.name, Contents := bs }])

/-- readFiles embeds SFTPTransferAgent.readFiles applied to the listing of
one remote directory, returning the downloaded files and the remote
directory as left behind by the call. -/
def readFiles (c : List RemoteEntry) : Except String (List File) × List RemoteEntry :=
  readFilesLoop c c []

/-- SftpAgentState carries the listings of the three remote directories
the Get calls read. -/
structure SftpAgentState where
  inbound : List RemoteEntry
  reconciliation : List RemoteEntry
  returns : List RemoteEntry
deriving DecidableEq

/-- GetInboundFiles embeds SFTPTransferAgent.GetInboundFiles, which is
readFiles on the configured Inbound path. -/
def GetInboundFiles (a : SftpAgentState) : Except String (List File) × SftpAgentState :=
  let r := readFiles a.inbound
  (r.1, { a with inbound := r.2 })

/-- GetReconciliationFiles embeds SFTPTransferAgent.GetReconciliationFiles,
which is readFiles on the configured Reconciliation path. -/
def GetReconciliationFiles (a : SftpAgentState) :
    Except String (List File) × SftpAgentState :=
  let r := readFiles a.reconciliation
  (r.1, { a with reconciliation := r.2 })

/-- GetReturnFiles embeds SFTPTransferAgent.GetReturnFiles, which is
readFiles on the configured Return path. -/
def GetReturnFiles (a : SftpAgentState) : Except String (List File) × SftpAgentState :=
  let r := readFiles a.returns
  (r.1, { a with returns := r.2 })

/-- Delete embeds SFTPTransferAgent.Delete: stat the path first; when the
stat reports not-found the method returns nil without touching the remote
side; when the entry exists it is removed.  In this transport model Stat
fails only with the not-found condition and Remove succeeds on an existing
path, matching the paths the claim is about. -/
def Delete (c : List RemoteEntry) (path : String) :
    Except String Unit × List RemoteEntry :=
  let s := connStat c path
  match s.1 with
  | none => (Except.ok (), s.2)
  | some _ => (Except.ok (), connRemove s.2 path)

/-- Modelled from the spec: the FTP agent Delete (ftp.go is not under src;
only ftp_test.go is).  Spec section 4.1: removes a path if present and
succeeds without error if the path does not exist. -/
def ftpDelete (c : List RemoteEntry) (path : String) :
    Except String Unit × List RemoteEntry :=
  match c.find? (fun e => e.name == path) with
  | none => (Except.ok (), c)
  | some _ => (Except.ok (), c.filter (fun e => !(e.name == path)))

/-- Modelled from the spec: the FTP agent directory listing (ftp.go is not
under src).  Spec section 4.2: enumerate the entries of the target
directory, skip entries that are themselves directories, and download each
remaining entry fully into memory before returning. -/
def ftpReadFiles (c : List RemoteEntry) : Except String (List File) :=
  Except.ok ((c.filter (fun e => !e.isDir)).map
    (fun e => { Filename := e.name, Contents := e.contents }))

/-!
SFTPTransferAgent.UploadFile, the part after conn.OpenFile succeeded.  The
remote handle behavior is abstracted as the outcome each of the four handle
operations would report, and the embedding records which operations the
code actually performs alongside its returned value.
-/

/-- FdBehavior gives the outcome each remote-handle operation of
UploadFile would report when invoked: none is success. -/
structure FdBehavior where
  filename : String
  copyErr : Option String
  syncErr : Option String
  chmodErr : Option String
  closeErr : Option String
deriving DecidableEq

/-- UStep names the four remote-handle operations UploadFile can perform
after the handle is open. -/
inductive UStep
  | copyStep
  | syncStep
  | chmodStep
  | closeStep
deriving DecidableEq

/-- uploadPostOpen embeds the tail of SFTPTransferAgent.UploadFile after
OpenFile: io.Copy, fd.Sync, fd.Chmod, fd.Close in that order.  A copy
failure closes the handle and returns; a sync failure whose text contains
SSH_FX_OP_UNSUPPORTED is skipped as success; any other sync failure and
any chmod failure return at once, without running the remaining steps; a
close failure is returned last.  The second component lists the operations
the code performed.  Byte counts of the Go messages are elided. -/
def uploadPostOpen (b : FdBehavior) : Except String Unit × List UStep :=
  match b.copyErr with
  | some e =>
    (Except.error ("sftp: problem copying " ++ b.filename ++ ": " ++ e),
     [UStep.copyStep, UStep.closeStep])
  | none =>
    match b.syncErr with
    | some e =>
      if strContains e ("SSH_FX_OP_UNSUPPORTED") = false then
        (Except.error ("sftp: problem with sync on " ++ b.filename ++ ": " ++ e),
         [UStep.copyStep, UStep.syncStep])
      else
        match b.chmodErr with
        | some e2 =>
          (Except.error ("sftp: problem with chmod on " ++ b.filename ++ ": " ++ e2),
           [UStep.copyStep, UStep.syncStep, UStep.chmodStep])
        | none =>
          match b.closeErr with
          | some e3 =>
            (Except.error ("sftp: problem closing " ++ b.filename ++ ": " ++ e3),
             [UStep.copyStep, UStep.syncStep, UStep.chmodStep, UStep.closeStep])
          | none =>
            (Except.ok (), [UStep.copyStep, UStep.syncStep, UStep.chmodStep, UStep.closeStep])
    | none =>
      match b.chmodErr with
      | some e2 =>
        (Except.error ("sftp: problem with chmod on " ++ b.filename ++ ": " ++ e2),
         [UStep.copyStep, UStep.syncStep, UStep.chmodStep])
      | none =>
        match b.closeErr with
        | some e3 =>
          (Except.error ("sftp: problem closing " ++ b.filename ++ ": " ++ e3),
           [UStep.copyStep, UStep.syncStep, UStep.chmodStep, UStep.closeStep])
        | none =>
          (Except.ok (), [UStep.copyStep, UStep.syncStep, UStep.chmodStep, UStep.closeStep])

/-- AuthMethod names the two ssh authentication mechanisms sftpConnect can
append to the client configuration. -/
inductive AuthMethod
  | password
  | privateKey
deriving DecidableEq

/-- sftpConnectAuth embeds the auth-selection switch of sftpConnect: the
first arm matching a non-empty credential wins, Password before
ClientPrivateKey, and with both empty the connect fails. -/
def sftpConnectAuth (password clientPrivateKey : String) : Except String AuthMethod :=
  if password ≠ "" then
    Except.ok AuthMethod.password
  else if clientPrivateKey ≠ "" then
    Except.ok AuthMethod.privateKey
  else
    Except.error ("sftpConnect: no auth method provided")

/-!
Host key warning.  sftpConnect guards the insecure-default warning with the
package-level sync.Once value hostKeyCallbackOnce, so the warning body can
run at most once in a process regardless of how many agents or connections
are created.  The once latch is threaded as explicit state; each connection
attempt is represented by the HostPublicKey string of its configuration and
yields the number of warnings that attempt emitted.
-/

/-- OnceState is the process-wide sync.Once latch guarding the host key
warning. -/
structure OnceState where
  done : Bool
deriving DecidableEq

/-- sftpConnectWarn embeds the host key branch of sftpConnect: with a
configured host public key the warning path is not taken at all; with none,
hostKeyCallbackOnce runs the warning only when the latch has not fired. -/
def sftpConnectWarn (st : OnceState) (hostPublicKey : String) : Nat × OnceState :=
  if hostPublicKey == "" then
    if st.done then (0, st) else (1, { done := true })
  else
    (0, st)

/-- runConnects folds a sequence of connection attempts through the
process-wide once latch, totalling the warnings emitted. -/
def runConnects (st : OnceState) : List String → Nat × OnceState
  | [] => (0, st)
  | k :: rest =>
    let w := sftpConnectWarn st k
    let ws := runConnects w.2 rest
    (w.1 + ws.1, ws.2)

/-!
Email notifier (internal/notify/email.go, part of the provided sources).
DialAndSend outcomes are abstracted as a function from the 1-based attempt
number to the error that attempt reports, none meaning success; the trace
records the returned error, how many attempts ran, and the total
milliseconds slept.
-/

/-- SendTrace is the observable outcome of sendEmail: its returned error,
the number of DialAndSend attempts made, and the milliseconds slept. -/
structure SendTrace where
  result : Option String
  attempts : Nat
  sleepMs : Nat
deriving DecidableEq

/-- maxRetriesOf embeds the maxRetries computation of sendEmail: 3 unless
the configured MaxRetries is positive. -/
def maxRetriesOf (cfgMaxRetries : Int) : Nat :=
  if 0 < cfgMaxRetries then cfgMaxRetries.toNat else 3

/-- sendLoop embeds the retry loop of sendEmail: for tries from 1 to
maxRetries call DialAndSend; on an error containing the text i/o timeout
sleep 250 milliseconds and continue, on any other error return it at once,
on success return nil; when the loop exhausts, return the last error. -/
def sendLoop (outcomes : Nat → Option String) (maxRetries : Nat)
    (tries : Nat) (outErr : Option String) (att sl : Nat) : SendTrace :=
  if h : tries ≤ maxRetries then
    match outcomes tries with
    | some e =>
      if strContains e ("i/o timeout") then
        sendLoop outcomes maxRetries (tries + 1) (some e) (att + 1) (sl + 250)
      else
        { result := some e, attempts := att + 1, sleepMs := sl }
    | none => { result := none, attempts := att + 1, sleepMs := sl }
  else
    { result := outErr, attempts := att, sleepMs := sl }
termination_by maxRetries + 1 - tries
decreasing_by omega

/-- sendEmail embeds notify.sendEmail for a given configured MaxRetries and
DialAndSend outcome sequence. -/
def sendEmail (cfgMaxRetries : Int) (outcomes : Nat → Option String) : SendTrace :=
  sendLoop outcomes (maxRetriesOf cfgMaxRetries) 1 none 0 0

/-- isTimeoutO tests whether a DialAndSend outcome is a failure whose text
contains i/o timeout, the only failures the sendEmail loop retries. -/
def isTimeoutO : Option String → Bool
  | some e => strContains e ("i/o timeout")
  | none => false

/-- handledOf is the identified file processFile hands to the processor
chain for one staged file that was not a hard failure. -/
def handledOf (p : List Nat × ParseResult) : ACHFile :=
  populateHashes { ID := contentHash p.1, Batches := p.2.Batches }

/-! Concrete example inputs used by witnesses and counterexamples. -/

/-- exFileC1 is a parsed file whose top-level header failed validation: no
identity anywhere, one batch with one entry. -/
def exFileC1 : ACHFile :=
  { ID := "", Batches := [{ batchID := "", entries := [{ serial := [1, 2, 3], ID := "" }] }] }

/-- exEntryA is a regular remote file named a. -/
def exEntryA : RemoteEntry :=
  { name := "a", isDir := false, contents := [1], copyErr := none }

/-- exDirMix is a remote directory listing holding one regular file and one
subdirectory, the regression scenario of TestFTP__Issue494. -/
def exDirMix : List RemoteEntry :=
  [{ name := "return-WEB.ach", isDir := false, contents := [1, 0, 1], copyErr := none },
   { name := "issue494", isDir := true, contents := [], copyErr := none }]

/-- exAgent exposes exDirMix as each of the three readable directories. -/
def exAgent : SftpAgentState :=
  { inbound := exDirMix, reconciliation := exDirMix, returns := exDirMix }

/-- exDir5 is a remote directory with one regular file whose copy completes
but whose transport reports the benign internal inconsistency error. -/
def exDir5 : List RemoteEntry :=
  [{ name := "first.ach", isDir := false, contents := [9, 9],
     copyErr := some ("internal inconsistency") }]

/-- exB6 is an upload handle whose sync step fails with an ordinary error
while every other step would succeed. -/
def exB6 : FdBehavior :=
  { filename := "f.ach", copyErr := none, syncErr := some ("sync failed"),
    chmodErr := none, closeErr := none }

/-- bCopyFail is an upload handle whose copy step fails. -/
def bCopyFail : FdBehavior :=
  { filename := "a", copyErr := some ("boom"), syncErr := none,
    chmodErr := none, closeErr := none }

/-- bSyncTol is an upload handle whose sync step reports the tolerated
unsupported-operation error. -/
def bSyncTol : FdBehavior :=
  { filename := "a", copyErr := none,
    syncErr := some ("sftp: SSH_FX_OP_UNSUPPORTED"),
    chmodErr := none, closeErr := none }

/-- bSyncBad is an upload handle whose sync step fails with an ordinary
error. -/
def bSyncBad : FdBehavior :=
  { filename := "a", copyErr := none, syncErr := some ("eof"),
    chmodErr := none, closeErr := none }

/-- bChmodBad is an upload handle whose chmod step fails. -/
def bChmodBad : FdBehavior :=
  { filename := "a", copyErr := none, syncErr := none,
    chmodErr := some ("denied"), closeErr := none }

/-- invalidAchBytes is the raw byte content of the invalid.ach file of
TestProcessor, the ASCII bytes of invalid-ach-file. -/
def invalidAchBytes : List Nat :=
  [105, 110, 118, 97, 108, 105, 100, 45, 97, 99, 104, 45, 102, 105, 108, 101]

/-- exPRinvalid is the parser outcome for invalid.ach: bytes that are not
the payment format at all, a missing-file-header error and zero batches. -/
def exPRinvalid : ParseResult :=
  { err := some (ParseErr.fileHeaderMissing ("none or more than one file headers")),
    Batches := [] }

/-- exPRhard is a parser outcome of the hard-failure class: a
mandatory-field error on a file header that is present, as with the HMBRAD
real-world file. -/
def exPRhard : ParseResult :=
  { err := some (ParseErr.other ("FileCreationDate is a mandatory field")),
    Batches := [] }

/-- exPRheaderless is a parser outcome for a staged file with no valid
top-level header but one structurally valid batch. -/
def exPRheaderless : ParseResult :=
  { err := some (ParseErr.fileHeaderMissing ("none or more than one file headers")),
    Batches := [{ batchID := "", entries := [{ serial := [5], ID := "" }] }] }

/-- exOutcomes is a DialAndSend outcome sequence whose first attempt times
out and whose second fails with a non-timeout error. -/
def exOutcomes : Nat → Option String :=
  fun j => if j == 1 then some ("read tcp: i/o timeout") else some ("smtp: auth failed")

/-! Supporting lemmas. -/

theorem contentHash_ne_empty (bs : List Nat) : contentHash bs ≠ "" := by
  intro h
  have hd : (contentHash bs).data = [] := by
    rw [h]
  simp only [contentHash, String.mk] at hd
  have hne : (List.range 40).map (fun i => hexDigit (digest160 bs / 16 ^ (39 - i) % 16)) ≠ [] := by
    simp [List.map_eq_nil_iff, List.range_eq_nil]
  exact hne hd

/-! Claim C5.  The spec tolerates a benign internal inconsistency reported
during an otherwise complete copy; the source checks for that text but
returns an error from both branches of the check, so the file is dropped
and the error propagates. -/

/-- C5: evaluating readFiles on a directory holding one regular file whose
copy completes but whose transport reports the benign internal
inconsistency error.  The code returns an error and no files, where the
claim (and the spec) require the file to be returned without error: the
tolerance branch of the source merely rewords the error message. -/
theorem C5_inconsistency_is_fatal :
    (readFiles exDir5).1 =
      Except.error ("sftp: read on first.ach: internal inconsistency") := by
  rfl

/-! Claim C6.  UploadFile does not run all four handle steps on an earlier
failure: a non-tolerated sync failure or a chmod failure returns at once
and no cleanup close is attempted; only a copy failure closes the handle. -/

/-- C6: the claim is false: on a sync failure (error without the
unsupported-operation text) UploadFile returns at once; chmod does not run
and no cleanup close of the remote handle is attempted. -/
theorem C6_counterexample :
    (uploadPostOpen exB6).1 =
      Except.error ("sftp: problem with sync on f.ach: sync failed") ∧
    (uploadPostOpen exB6).2 = [UStep.copyStep, UStep.syncStep] := by
  exact ⟨rfl, rfl⟩

/-- C6 (amended): after the handle is opened, a copy failure surfaces the
copy error and still closes the handle; a sync failure whose text contains
SSH_FX_OP_UNSUPPORTED is treated as success (when chmod and close then
succeed the upload succeeds); any other sync failure and any chmod failure
surface that first error at once, without running the remaining steps and
without attempting a cleanup close. -/
theorem C6_upload_steps (b : FdBehavior) :
    (∀ e, b.copyErr = some e →
      uploadPostOpen b =
        (Except.error ("sftp: problem copying " ++ b.filename ++ ": " ++ e),
         [UStep.copyStep, UStep.closeStep])) ∧
    (∀ e, b.copyErr = none → b.syncErr = some e →
      strContains e ("SSH_FX_OP_UNSUPPORTED") = true →
      b.chmodErr = none → b.closeErr = none →
      uploadPostOpen b =
        (Except.ok (), [UStep.copyStep, UStep.syncStep, UStep.chmodStep, UStep.closeStep])) ∧
    (∀ e, b.copyErr = none → b.syncErr = some e →
      strContains e ("SSH_FX_OP_UNSUPPORTED") = false →
      uploadPostOpen b =
        (Except.error ("sftp: problem with sync on " ++ b.filename ++ ": " ++ e),
         [UStep.copyStep, UStep.syncStep]) ∧
      UStep.closeStep ∉ (uploadPostOpen b).2) ∧
    (∀ e, b.copyErr = none → b.syncErr = none → b.chmodErr = some e →
      uploadPostOpen b =
        (Except.error ("sftp: problem with chmod on " ++ b.filename ++ ": " ++ e),
         [UStep.copyStep, UStep.syncStep, UStep.chmodStep]) ∧
      UStep.closeStep ∉ (uploadPostOpen b).2) := by
  refine ⟨?_, ?_, ?_, ?_⟩
  · intro e h
    simp [uploadPostOpen, h]
  · intro e h1 h2 h3 h4 h5
    simp [uploadPostOpen, h1, h2, h3, h4, h5]
  · intro e h1 h2 h3
    constructor
    · simp [uploadPostOpen, h1, h2, h3]
    · simp [uploadPostOpen, h1, h2, h3]
  · intro e h1 h2 h3
    constructor
    · simp [uploadPostOpen, h1, h2, h3]
    · simp [uploadPostOpen, h1, h2, h3]

/-- C6 witness: the four cases of the amended statement at concrete handle
behaviors. -/
theorem C6_upload_steps_witness :
    uploadPostOpen bCopyFail =
      (Except.error ("sftp: problem copying a: boom"), [UStep.copyStep, UStep.closeStep]) ∧
    uploadPostOpen bSyncTol =
      (Except.ok (), [UStep.copyStep, UStep.syncStep, UStep.chmodStep, UStep.closeStep]) ∧
    uploadPostOpen bSyncBad =
      (Except.error ("sftp: problem with sync on a: eof"), [UStep.copyStep, UStep.syncStep]) ∧
    uploadPostOpen bChmodBad =
      (Except.error ("sftp: problem with chmod on a: denied"),
       [UStep.copyStep, UStep.syncStep, UStep.chmodStep]) :=
  ⟨(C6_upload_steps bCopyFail).1 ("boom") rfl,
   (C6_upload_steps bSyncTol).2.1 ("sftp: SSH_FX_OP_UNSUPPORTED") rfl rfl (by decide) rfl rfl,
   ((C6_upload_steps bSyncBad).2.2.1 ("eof") rfl rfl (by decide)).1,
   ((C6_upload_steps bChmodBad).2.2.2 ("denied") rfl rfl rfl).1⟩

/-! Claim C7.  The auth switch of sftpConnect takes the first matching arm:
a non-empty password wins even when a private key is also supplied, so
supplying both is not a construction failure. -/

/-- C7: the claim is false: with both a password and a private key
supplied, agent construction does not fail; password auth is selected. -/
theorem C7_counterexample :
    sftpConnectAuth ("secret") ("key-pem") = Except.ok AuthMethod.password := by
  rfl

/-- C7 (amended): construction fails only when neither credential is
supplied; otherwise exactly one method is attempted, password whenever the
password is non-empty (taking precedence if both are supplied), else the
private key. -/
theorem C7_auth_selection (p k : String) :
    (p = "" → k = "" →
      sftpConnectAuth p k = Except.error ("sftpConnect: no auth method provided")) ∧
    (p ≠ "" → sftpConnectAuth p k = Except.ok AuthMethod.password) ∧
    (p = "" → k ≠ "" → sftpConnectAuth p k = Except.ok AuthMethod.privateKey) := by
  refine ⟨?_, ?_, ?_⟩
  · intro h1 h2
    simp [sftpConnectAuth, h1, h2]
  · intro h1
    simp [sftpConnectAuth, h1]
  · intro h1 h2
    simp [sftpConnectAuth, h1, h2]

/-- C7 witness: the three arms of the amended statement at concrete
credentials. -/
theorem C7_auth_selection_witness :
    sftpConnectAuth ("") ("") = Except.error ("sftpConnect: no auth method provided") ∧
    sftpConnectAuth ("pw") ("") = Except.ok AuthMethod.password ∧
    sftpConnectAuth ("") ("pem") = Except.ok AuthMethod.privateKey :=
  ⟨(C7_auth_selection ("") ("")).1 rfl rfl,
   (C7_auth_selection ("pw") ("")).2.1 (by decide),
   (C7_auth_selection ("") ("pem")).2.2 rfl (by decide)⟩

/-! Claim C9.  The host key warning is guarded by the process-wide
sync.Once value hostKeyCallbackOnce, so over any sequence of connection
attempts it fires at most once. -/

theorem sftpConnectWarn_done (k : String) :
    sftpConnectWarn { done := true } k = (0, { done := true }) := by
  unfold sftpConnectWarn
  split <;> rfl

theorem runConnects_done (keys : List String) :
    runConnects { done := true } keys = (0, { done := true }) := by
  induction keys with
  | nil => rfl
  | cons k rest ih => simp [runConnects, sftpConnectWarn_done, ih]

/-- C9: across any sequence of sftpConnect attempts in one process, each
described by its configured HostPublicKey, the insecure-default warning is
emitted at most once in total, however many agents or connections are
created. -/
theorem C9_warning_at_most_once (keys : List String) :
    (runConnects { done := false } keys).1 ≤ 1 := by
  induction keys with
  | nil => simp [runConnects]
  | cons k rest ih =>
    by_cases h : k = ""
    · subst h
      simp [runConnects, sftpConnectWarn, runConnects_done]
    · simp [runConnects, sftpConnectWarn, h]
      exact ih

/-! Claim C2.  Delete stats first and normalizes the not-found condition to
success; an existing path is removed. -/

theorem find?_connRemove (c : List RemoteEntry) (p : String) :
    (connRemove c p).find? (fun e => e.name == p) = none := by
  rw [List.find?_eq_none]
  intro e he
  have hmem := List.mem_filter.mp he
  simpa using hmem.2

/-- C2: for both transfer agents, Delete of a path absent from the remote
host returns no error and leaves the remote side untouched; Delete of an
existing path returns no error and removes it. -/
theorem C2_delete (c : List RemoteEntry) (p : String) :
    (c.find? (fun e => e.name == p) = none →
      Delete c p = (Except.ok (), c) ∧ ftpDelete c p = (Except.ok (), c)) ∧
    (∀ x, c.find? (fun e => e.name == p) = some x →
      (Delete c p).1 = Except.ok () ∧
      ((Delete c p).2).find? (fun e => e.name == p) = none ∧
      (ftpDelete c p).1 = Except.ok () ∧
      ((ftpDelete c p).2).find? (fun e => e.name == p) = none) := by
  constructor
  · intro h
    constructor
    · simp [Delete, connStat, h]
    · simp [ftpDelete, h]
  · intro x h
    refine ⟨?_, ?_, ?_, ?_⟩
    · simp [Delete, connStat, h]
    · simp [Delete, connStat, h, find?_connRemove]
    · simp [ftpDelete, h]
    · simp only [ftpDelete, h]
      exact find?_connRemove c p

/-- C2 witness: deleting a missing path from a one-file host succeeds and
changes nothing; deleting the present path succeeds and removes it. -/
theorem C2_delete_witness :
    (Delete [exEntryA] ("missing") = (Except.ok (), [exEntryA]) ∧
     ftpDelete [exEntryA] ("missing") = (Except.ok (), [exEntryA])) ∧
    ((Delete [exEntryA] ("a")).1 = Except.ok () ∧
     ((Delete [exEntryA] ("a")).2).find? (fun e => e.name == ("a")) = none ∧
     (ftpDelete [exEntryA] ("a")).1 = Except.ok () ∧
     ((ftpDelete [exEntryA] ("a")).2).find? (fun e => e.name == ("a")) = none) :=
  ⟨(C2_delete [exEntryA] ("missing")).1 (by decide),
   (C2_delete [exEntryA] ("a")).2 exEntryA (by decide)⟩

/-! Claim C1.  The repository test TestProcessor_populateHashes requires a
batch ID to stay empty after populateHashes, while every entry receives a
non-empty hash: the claim is wrong about batches. -/

/-- C1: the claim is false: on a parsed file that failed header validation
but holds one structurally valid batch, populateHashes leaves the batch
without a content identity (its ID stays the empty string), exactly as the
repository test requires. -/
theorem C1_counterexample :
    ¬ ∀ b ∈ (populateHashes exFileC1).Batches, b.batchID ≠ "" := by
  intro h
  exact h
    { batchID := "",
      entries := [{ serial := [1, 2, 3], ID := contentHash [1, 2, 3] }] }
    (by decide) rfl

/-- C1 (amended): for every parsed payment file, populateHashes assigns to
each entry of each batch the content hash of its serialized content, a
non-empty identity, while batch identities are left exactly as the parser
produced them (hence empty for a file that failed header validation). -/
theorem C1_entry_hashes (f : ACHFile) :
    (∀ b ∈ (populateHashes f).Batches, ∀ e ∈ b.entries,
      e.ID = contentHash e.serial ∧ e.ID ≠ "") ∧
    (populateHashes f).Batches.map (fun b => b.batchID) =
      f.Batches.map (fun b => b.batchID) := by
  constructor
  · intro b hb e he
    simp only [populateHashes, List.mem_map] at hb
    obtain ⟨b0, _, rfl⟩ := hb
    simp only [List.mem_map] at he
    obtain ⟨e0, _, rfl⟩ := he
    exact ⟨rfl, contentHash_ne_empty _⟩
  · simp [populateHashes]

/-- C1 witness: the amended statement applied to the concrete test file,
yielding the non-empty identity of its single entry. -/
theorem C1_entry_hashes_witness :
    ({ serial := [1, 2, 3], ID := contentHash [1, 2, 3] } : EntryDetail).ID ≠ "" :=
  ((C1_entry_hashes exFileC1).1
    { batchID := "",
      entries := [{ serial := [1, 2, 3], ID := contentHash [1, 2, 3] }] }
    (by decide)
    { serial := [1, 2, 3], ID := contentHash [1, 2, 3] }
    (by decide)).2

/-! Claim C8.  TestProcessor pins the opposite of the claim's first half:
the zero-batch unparsable invalid.ach must be handed to the processors,
identified by the hash of its raw bytes, with processDir reporting no
error.  The hard-failure gate of processFile is the class of the parse
error (anything other than missing-file-header), not the batch count. -/

theorem processFile_ok (bs : List Nat) (pr : ParseResult)
    (h : isHardErr pr.err = false) :
    processFile bs pr = Except.ok (handledOf (bs, pr)) := by
  cases he : pr.err with
  | none => simp [processFile, he, handledOf]
  | some pe =>
    cases pe with
    | fileHeaderMissing m => simp [processFile, he, handledOf]
    | other e =>
      rw [he] at h
      simp [isHardErr] at h

theorem processDir_foldl (files : List (List Nat × ParseResult))
    (h : ∀ p ∈ files, isHardErr p.2.err = false) (errs : List String) (acc : List ACHFile) :
    files.foldl
      (fun a p =>
        match processFile p.1 p.2 with
        | Except.error e => (a.1 ++ [e], a.2)
        | Except.ok f => (a.1, a.2 ++ [f]))
      (errs, acc)
    = (errs, acc ++ files.map handledOf) := by
  induction files generalizing errs acc with
  | nil => simp
  | cons p rest ih =>
    have hp : processFile p.1 p.2 = Except.ok (handledOf p) := by
      have hb := h p (by simp)
      exact processFile_ok p.1 p.2 hb
    simp only [List.foldl_cons, hp]
    rw [ih (fun q hq => h q (by simp [hq]))]
    simp

theorem processDir_eq (files : List (List Nat × ParseResult))
    (h : ∀ p ∈ files, isHardErr p.2.err = false) :
    processDir files = ([], files.map handledOf) := by
  unfold processDir
  simpa using processDir_foldl files h [] []

/-- C8: the claim is false: on the invalid.ach scenario of TestProcessor -
bytes that are not the payment format at all, a missing-file-header parse
error and zero batches - processFile does not return an error: it hands
the file onward identified by the content hash of its raw bytes, and
processDir over a directory holding only that file reports no failure,
exactly as the test requires. -/
theorem C8_counterexample :
    processFile invalidAchBytes exPRinvalid =
      Except.ok { ID := contentHash invalidAchBytes, Batches := [] } ∧
    (processDir [(invalidAchBytes, exPRinvalid)]).1 = [] ∧
    (processDir [(invalidAchBytes, exPRinvalid)]).2 =
      [{ ID := contentHash invalidAchBytes, Batches := [] }] := by
  exact ⟨rfl, rfl, rfl⟩

/-- C8 (amended): a staged file whose parse reports an error outside the
missing-file-header class (such as a mandatory-field error on a present
file header) is a hard per-file failure surfaced by processFile; a file
that parses cleanly or fails only with the missing-file-header error is
handed to the processors regardless of batch count - zero batches included
- identified by the non-empty content hash of its raw bytes; and a
directory whose files all avoid the hard-failure class is processed with
no failure at all, every file reaching the processors. -/
theorem C8_failure_classes (bs : List Nat) (pr : ParseResult) :
    (∀ e, pr.err = some (ParseErr.other e) →
      processFile bs pr = Except.error ("problem parsing: " ++ e)) ∧
    (isHardErr pr.err = false →
      processFile bs pr = Except.ok (handledOf (bs, pr)) ∧
      (handledOf (bs, pr)).ID = contentHash bs ∧ contentHash bs ≠ "") ∧
    (∀ files : List (List Nat × ParseResult),
      (∀ p ∈ files, isHardErr p.2.err = false) →
      (processDir files).1 = [] ∧ (processDir files).2.length = files.length) := by
  refine ⟨?_, ?_, ?_⟩
  · intro e h1
    simp [processFile, h1]
  · intro h1
    exact ⟨processFile_ok bs pr h1, rfl, contentHash_ne_empty bs⟩
  · intro files hf
    rw [processDir_eq files hf]
    simp

/-- C8 witness: the hard-failure case on a mandatory-field header error,
the tolerated case on a missing-header file with one batch, and a
directory of one tolerated file processed without failure. -/
theorem C8_failure_classes_witness :
    processFile [7] exPRhard =
      Except.error ("problem parsing: FileCreationDate is a mandatory field") ∧
    (processFile [7] exPRheaderless = Except.ok (handledOf ([7], exPRheaderless)) ∧
      (handledOf ([7], exPRheaderless)).ID = contentHash [7] ∧ contentHash [7] ≠ "") ∧
    ((processDir [([7], exPRheaderless)]).1 = [] ∧
     (processDir [([7], exPRheaderless)]).2.length = 1) :=
  ⟨(C8_failure_classes [7] exPRhard).1 ("FileCreationDate is a mandatory field") rfl,
   (C8_failure_classes [7] exPRheaderless).2.1 rfl,
   (C8_failure_classes [7] exPRheaderless).2.2 [([7], exPRheaderless)] (by decide)⟩

/-! Claims C3 and C4.  readFiles skips subdirectory entries without
failing the listing, returns exactly the regular files one level deep, and
leaves the remote directory untouched, so repeated calls agree. -/

theorem readFilesLoop_state (c : List RemoteEntry) (entries : List RemoteEntry)
    (acc : List File) : (readFilesLoop c entries acc).2 = c := by
  induction entries generalizing acc with
  | nil => rfl
  | cons e rest ih =>
    cases hd : e.isDir with
    | true => simpa [readFilesLoop, connOpenStat, hd] using ih acc
    | false =>
      cases hc : e.copyErr with
      | some err =>
        simp only [readFilesLoop, connOpenStat, connCopy, hd, Bool.false_eq_true,
          if_false, hc]
        split <;> rfl
      | none =>
        simpa [readFilesLoop, connOpenStat, connCopy, hd, hc] using
          ih (acc ++ [{ Filename := e.name, Contents := e.contents }])

theorem readFilesLoop_ok (c : List RemoteEntry) (entries : List RemoteEntry)
    (h : ∀ e ∈ entries, e.isDir = false → e.copyErr = none) (acc : List File) :
    readFilesLoop c entries acc =
      (Except.ok (acc ++ (entries.filter (fun e => !e.isDir)).map
        (fun e => { Filename := e.name, Contents := e.contents })), c) := by
  induction entries generalizing acc with
  | nil => simp [readFilesLoop]
  | cons e rest ih =>
    have hrest : ∀ x ∈ rest, x.isDir = false → x.copyErr = none :=
      fun x hx => h x (by simp [hx])
    cases hd : e.isDir with
    | true =>
      simpa [readFilesLoop, connOpenStat, hd] using ih hrest acc
    | false =>
      have hc : e.copyErr = none := h e (by simp) hd
      simp only [readFilesLoop, connOpenStat, connCopy, hd, Bool.false_eq_true,
        if_false, hc]
      rw [ih hrest]
      simp [hd]

theorem readFiles_ok (c : List RemoteEntry)
    (h : ∀ e ∈ c, e.isDir = false → e.copyErr = none) :
    readFiles c =
      (Except.ok ((c.filter (fun e => !e.isDir)).map
        (fun e => { Filename := e.name, Contents := e.contents })), c) := by
  unfold readFiles
  rw [readFilesLoop_ok c c h []]
  simp

/-- C3: on a remote directory mixing regular files and subdirectories,
with every regular file readable, each of the three Get calls returns
exactly the regular files one level deep, in listing order, excluding
every subdirectory entry and with no error caused by their presence; the
spec-modelled FTP listing does the same unconditionally. -/
theorem C3_subdirectories_skipped (a : SftpAgentState) :
    ((∀ e ∈ a.inbound, e.isDir = false → e.copyErr = none) →
      (GetInboundFiles a).1 =
        Except.ok ((a.inbound.filter (fun e => !e.isDir)).map
          (fun e => { Filename := e.name, Contents := e.contents }))) ∧
    ((∀ e ∈ a.reconciliation, e.isDir = false → e.copyErr = none) →
      (GetReconciliationFiles a).1 =
        Except.ok ((a.reconciliation.filter (fun e => !e.isDir)).map
          (fun e => { Filename := e.name, Contents := e.contents }))) ∧
    ((∀ e ∈ a.returns, e.isDir = false → e.copyErr = none) →
      (GetReturnFiles a).1 =
        Except.ok ((a.returns.filter (fun e => !e.isDir)).map
          (fun e => { Filename := e.name, Contents := e.contents }))) ∧
    (∀ c : List RemoteEntry,
      ftpReadFiles c =
        Except.ok ((c.filter (fun e => !e.isDir)).map
          (fun e => { Filename := e.name, Contents := e.contents }))) := by
  refine ⟨?_, ?_, ?_, ?_⟩
  · intro h
    simp [GetInboundFiles, readFiles_ok a.inbound h]
  · intro h
    simp [GetReconciliationFiles, readFiles_ok a.reconciliation h]
  · intro h
    simp [GetReturnFiles, readFiles_ok a.returns h]
  · intro c
    rfl

/-- C3 witness: the regression scenario of TestFTP__Issue494 — a return
directory holding one regular file and one subdirectory yields exactly the
regular file, with no error. -/
theorem C3_subdirectories_skipped_witness :
    (GetReturnFiles exAgent).1 =
      Except.ok [{ Filename := "return-WEB.ach", Contents := [1, 0, 1] }] := by
  have h := (C3_subdirectories_skipped exAgent).2.2.1 (by decide)
  rw [h]
  rfl

/-- C4: reading a remote directory has no side effect on it: each Get call
hands back the agent state it was given, and an immediately repeated call
returns the same files with byte-identical contents. -/
theorem C4_reads_idempotent (a : SftpAgentState) :
    ((GetInboundFiles a).2 = a ∧
      (GetInboundFiles ((GetInboundFiles a).2)).1 = (GetInboundFiles a).1) ∧
    ((GetReconciliationFiles a).2 = a ∧
      (GetReconciliationFiles ((GetReconciliationFiles a).2)).1 =
        (GetReconciliationFiles a).1) ∧
    ((GetReturnFiles a).2 = a ∧
      (GetReturnFiles ((GetReturnFiles a).2)).1 = (GetReturnFiles a).1) := by
  have hi : (GetInboundFiles a).2 = a := by
    simp [GetInboundFiles, readFiles, readFilesLoop_state]
  have hr : (GetReconciliationFiles a).2 = a := by
    simp [GetReconciliationFiles, readFiles, readFilesLoop_state]
  have ht : (GetReturnFiles a).2 = a := by
    simp [GetReturnFiles, readFiles, readFilesLoop_state]
  exact ⟨⟨hi, by rw [hi]⟩, ⟨hr, by rw [hr]⟩, ⟨ht, by rw [ht]⟩⟩

/-! Claim C10.  The sendEmail retry loop: only failures whose text contains
i/o timeout are retried, 250 milliseconds apart, for at most maxRetries
attempts, with maxRetries defaulting to 3 when the configured value is not
positive; any other failure returns at once and a success returns nil. -/

theorem maxRetriesOf_pos (m : Int) : 1 ≤ maxRetriesOf m := by
  unfold maxRetriesOf
  split
  · rename_i h
    omega
  · omega

theorem sendLoop_attempts (outcomes : Nat → Option String) (maxR : Nat) (tries : Nat)
    (outErr : Option String) (att sl : Nat) :
    (sendLoop outcomes maxR tries outErr att sl).attempts ≤ att + (maxR + 1 - tries) := by
  rw [sendLoop]
  by_cases h : tries ≤ maxR
  · rw [dif_pos h]
    cases ho : outcomes tries with
    | none =>
      simp
      omega
    | some e =>
      by_cases hT : strContains e ("i/o timeout") = true
      · simp only [hT, if_true]
        have hrec := sendLoop_attempts outcomes maxR (tries + 1) (some e) (att + 1) (sl + 250)
        exact le_trans hrec (by omega)
      · simp only [hT, if_false]
        simp
        omega
  · rw [dif_neg h]
    simp
termination_by maxR + 1 - tries
decreasing_by omega

theorem sendLoop_skip (outcomes : Nat → Option String) (maxR : Nat) :
    ∀ (n tries : Nat) (outErr : Option String) (att sl : Nat),
      tries + n ≤ maxR + 1 →
      (∀ j, tries ≤ j → j < tries + n → isTimeoutO (outcomes j) = true) →
      ∃ oe, sendLoop outcomes maxR tries outErr att sl =
        sendLoop outcomes maxR (tries + n) oe (att + n) (sl + 250 * n)
  | 0, tries, outErr, att, sl, _, _ => ⟨outErr, by simp⟩
  | n + 1, tries, outErr, att, sl, hle, htm => by
    have h1 : tries ≤ maxR := by omega
    have ht : isTimeoutO (outcomes tries) = true := htm tries le_rfl (by omega)
    cases ho : outcomes tries with
    | none =>
      rw [ho] at ht
      simp [isTimeoutO] at ht
    | some e =>
      rw [ho] at ht
      have hce : strContains e ("i/o timeout") = true := ht
      obtain ⟨oe, hoe⟩ := sendLoop_skip outcomes maxR n (tries + 1) (some e) (att + 1)
        (sl + 250) (by omega) (fun j hj1 hj2 => htm j (by omega) (by omega))
      refine ⟨oe, ?_⟩
      rw [sendLoop, dif_pos h1, ho]
      simp only [hce, if_true]
      rw [hoe]
      have e1 : tries + 1 + n = tries + (n + 1) := by omega
      have e2 : att + 1 + n = att + (n + 1) := by omega
      have e3 : sl + 250 + 250 * n = sl + 250 * (n + 1) := by omega
      rw [e1, e2, e3]

theorem sendLoop_exhaust (outcomes : Nat → Option String) (maxR : Nat) (tries : Nat)
    (outErr : Option String) (att sl : Nat)
    (htm : ∀ j, tries ≤ j → j ≤ maxR → isTimeoutO (outcomes j) = true) :
    sendLoop outcomes maxR tries outErr att sl =
      { result := if tries ≤ maxR then outcomes maxR else outErr,
        attempts := att + (maxR + 1 - tries),
        sleepMs := sl + 250 * (maxR + 1 - tries) } := by
  by_cases h : tries ≤ maxR
  · have ht := htm tries le_rfl h
    cases ho : outcomes tries with
    | none =>
      rw [ho] at ht
      simp [isTimeoutO] at ht
    | some e =>
      rw [ho] at ht
      have hce : strContains e ("i/o timeout") = true := ht
      rw [sendLoop, dif_pos h, ho]
      simp only [hce, if_true]
      rw [sendLoop_exhaust outcomes maxR (tries + 1) (some e) (att + 1) (sl + 250)
        (fun j hj1 hj2 => htm j (by omega) hj2)]
      have a1 : att + 1 + (maxR + 1 - (tries + 1)) = att + (maxR + 1 - tries) := by omega
      have a2 : sl + 250 + 250 * (maxR + 1 - (tries + 1)) = sl + 250 * (maxR + 1 - tries) := by
        omega
      by_cases h2 : tries + 1 ≤ maxR
      · rw [if_pos h2, if_pos h, a1, a2]
      · have hEq : tries = maxR := by omega
        rw [if_neg h2, if_pos h, a1, a2, ← hEq, ho]
  · rw [sendLoop, dif_neg h]
    have h0 : maxR + 1 - tries = 0 := by omega
    simp [h, h0]
termination_by maxR + 1 - tries
decreasing_by omega

/-- C10: sendEmail uses 3 attempts when the configured MaxRetries is not
positive, never makes more than maxRetries attempts, returns nil as soon
as an attempt succeeds, returns any failure whose text lacks i/o timeout
at once, retries only timeout failures with a 250 millisecond sleep after
each, and when every attempt times out returns the last timeout error
after maxRetries attempts. -/
theorem C10_sendEmail (m : Int) (outcomes : Nat → Option String) (k : Nat) :
    (¬ 0 < m → maxRetriesOf m = 3) ∧
    (sendEmail m outcomes).attempts ≤ maxRetriesOf m ∧
    (1 ≤ k → k ≤ maxRetriesOf m →
      (∀ j, 1 ≤ j → j < k → isTimeoutO (outcomes j) = true) →
      ((outcomes k = none →
        sendEmail m outcomes =
          { result := none, attempts := k, sleepMs := 250 * (k - 1) }) ∧
       (∀ e, outcomes k = some e → strContains e ("i/o timeout") = false →
        sendEmail m outcomes =
          { result := some e, attempts := k, sleepMs := 250 * (k - 1) }))) ∧
    ((∀ j, 1 ≤ j → j ≤ maxRetriesOf m → isTimeoutO (outcomes j) = true) →
      sendEmail m outcomes =
        { result := outcomes (maxRetriesOf m), attempts := maxRetriesOf m,
          sleepMs := 250 * maxRetriesOf m }) := by
  refine ⟨?_, ?_, ?_, ?_⟩
  · intro h
    simp [maxRetriesOf, h]
  · have hb := sendLoop_attempts outcomes (maxRetriesOf m) 1 none 0 0
    exact le_trans hb (by omega)
  · intro hk1 hkmax htm
    obtain ⟨oe, hoe⟩ := sendLoop_skip outcomes (maxRetriesOf m) (k - 1) 1 none 0 0
      (by omega) (fun j hj1 hj2 => htm j hj1 (by omega))
    have hk : 1 + (k - 1) = k := by omega
    rw [hk] at hoe
    constructor
    · intro hnone
      unfold sendEmail
      rw [hoe, sendLoop, dif_pos hkmax, hnone]
      simp only [SendTrace.mk.injEq]
      refine ⟨by first | rfl | trivial, by omega, by omega⟩
    · intro e he hnt
      unfold sendEmail
      rw [hoe, sendLoop, dif_pos hkmax, he]
      simp only [hnt, Bool.false_eq_true, if_false]
      simp only [SendTrace.mk.injEq]
      refine ⟨by first | rfl | trivial, by omega, by omega⟩
  · intro htm
    unfold sendEmail
    rw [sendLoop_exhaust outcomes (maxRetriesOf m) 1 none 0 0 htm]
    have h1 : 1 ≤ maxRetriesOf m := maxRetriesOf_pos m
    simp only [h1, if_true, SendTrace.mk.injEq]
    refine ⟨by first | rfl | trivial, by omega, by omega⟩

/-- C10 witness: with a non-positive configured MaxRetries, a first
attempt that times out and a second that fails with a non-timeout error,
sendEmail sleeps once for 250 milliseconds and returns the second error
after exactly two attempts. -/
theorem C10_sendEmail_witness :
    sendEmail (-1) exOutcomes =
      { result := some ("smtp: auth failed"), attempts := 2, sleepMs := 250 } :=
  ((C10_sendEmail (-1) exOutcomes 2).2.2.1 (by decide) (by decide)
    (by
      intro j h1 h2
      have hj : j = 1 := by omega
      subst hj
      decide)).2 ("smtp: auth failed") (by decide) (by decide)
